import Mathlib

/-!
# CavityProof: shallow embedding of `programs/cavityproof/src/lib.rs`

This file embeds the on-chain program as pure Lean functions and proves
properties of the claim authorization protocol: the streak state machine,
the canonical payload encoding, the attestation scan, and the ordering of
the checks performed by `claim_brush` and `claim_brush_dev`.

Machine integers are modelled as `Nat` / `Int` with explicit reductions
modulo `2^64` where the Rust code can overflow (`i64` addition wraps in
release builds), and `u32::saturating_add` is modelled with `min`.
Byte strings (`[u8; N]`, `Vec<u8>`, `Pubkey`) are `List Nat`.
-/

namespace CavityProof

set_option maxRecDepth 100000

deriving instance DecidableEq for Except

/-! ## Machine-integer arithmetic -/

/-- Largest value of a Rust `u32`. -/
def u32Max : Nat := 4294967295

/-- Rust `u32::saturating_add`, clamping at `u32::MAX`. -/
def satAddU32 (a b : Nat) : Nat := min (a + b) u32Max

/-- Smallest value of a Rust `i64`. -/
def i64Min : Int := -9223372036854775808

/-- Largest value of a Rust `i64`. -/
def i64Max : Int := 9223372036854775807

/-- Two's-complement wrap of an integer into the `i64` range
`[-2^63, 2^63)`; this is what `i64` addition does in a release build. -/
def wrap64 (x : Int) : Int :=
  (x + 9223372036854775808) % 18446744073709551616 - 9223372036854775808

/-! ## Bytes -/

/-- Byte strings are lists of naturals (each intended to be `< 256`). -/
abbrev Bytes := List Nat

/-- The `k` little-endian base-256 digits of `n` (Rust `to_le_bytes`,
truncated to `k` bytes). -/
def natLeBytes : Nat → Nat → Bytes
  | 0, _ => []
  | k + 1, n => n % 256 :: natLeBytes k (n / 256)

/-- Rust `i64::to_le_bytes`: the 8 little-endian bytes of the
two's-complement representation. -/
def i64ToLeBytes (x : Int) : Bytes :=
  natLeBytes 8 (x % 18446744073709551616).toNat

/-! ## Base58-decoded program constants

The source stores the Ed25519 verify program id and the oracle public key
as base58 strings and decodes them with `Pubkey::from_str`.  We decode the
same strings here. -/

/-- The base58 alphabet used by Solana pubkeys. -/
def base58Alphabet : List Char :=
  "123456789ABCDEFGHJKLMNPQRSTUVWXYZabcdefghijkmnopqrstuvwxyz".toList

/-- Value of one base58 digit. -/
def base58DigitVal (c : Char) : Nat := List.indexOf c base58Alphabet

/-- A base58 string read as a natural number. -/
def base58ToNat (s : String) : Nat :=
  s.toList.foldl (fun acc c => acc * 58 + base58DigitVal c) 0

/-- `Pubkey::from_str`: the 32 big-endian bytes of the base58 value. -/
def pubkeyFromBase58 (s : String) : Bytes :=
  (natLeBytes 32 (base58ToNat s)).reverse

/-- `ED25519_ID`: the well-known Ed25519 verify program id string. -/
def ED25519_ID : String := "Ed25519SigVerify111111111111111111111111111"

/-- `ORACLE_PUBKEY`: the hardcoded oracle public key string. -/
def ORACLE_PUBKEY : String := "8yrUjTDd5pygozAQPob9nViMUUV1NT8in7BHCbe8HhGT"

/-- The decoded Ed25519 verify program id (`Pubkey::from_str(ED25519_ID)`). -/
def ed25519Pid : Bytes := pubkeyFromBase58 ED25519_ID

/-- The decoded oracle public key bytes
(`ORACLE_PUBKEY.parse::<Pubkey>().to_bytes()`). -/
def oraclePubkeyBytes : Bytes := pubkeyFromBase58 ORACLE_PUBKEY

/-! ## Payload encoding (`build_payload_bytes`) -/

/-- The 4-byte magic tag `b"CPv1"` (ASCII `C P v 1`). -/
def magicBytes : Bytes := [67, 80, 118, 49]

/-- `build_payload_bytes`: `"CPv1" + user(32) + day(i64 LE) +
sessionHash(32) + nonce(16) + expiresAt(i64 LE)`. -/
def build_payload_bytes (user : Bytes) (day : Int) (session_hash : Bytes)
    (nonce : Bytes) (expires_at : Int) : Bytes :=
  magicBytes ++ user ++ i64ToLeBytes day ++ session_hash ++ nonce ++
    i64ToLeBytes expires_at

/-! ## Subslice search (`contains_subslice`) -/

/-- All contiguous windows of length `k` of a list
(Rust `slice::windows`). -/
def windows (k : Nat) : Bytes → List Bytes
  | [] => []
  | h :: t =>
    if (h :: t).length < k then [] else List.take k (h :: t) :: windows k t

/-- `contains_subslice`: empty needle always matches; a needle longer than
the haystack never matches; otherwise some window equals the needle. -/
def contains_subslice (haystack needle : Bytes) : Bool :=
  if needle.isEmpty then true
  else if haystack.length < needle.length then false
  else (windows needle.length haystack).any (fun w => w == needle)

/-! ## Errors

The first five constructors are the program's `ErrorCode` enum.
`AccountAlreadyInUse` is the framework error raised during account
validation when the `init` constraint on the claim PDA (declared in the
`ClaimBrush` accounts struct) finds that the `(user, nonce)` record
already exists. -/

/-- Error outcomes of a claim instruction. -/
inductive ErrorCode where
  | BadOwner
  | AlreadyClaimedToday
  | InvalidDay
  | Expired
  | MissingEd25519Ix
  | AccountAlreadyInUse
deriving DecidableEq

/-! ## The attestation scan (`require_ed25519_ix`) -/

/-- One co-batched instruction as seen through the instructions sysvar. -/
structure Instr where
  program_id : Bytes
  data : Bytes
deriving DecidableEq

/-- The loop body of `require_ed25519_ix`: `fuel` counts the remaining
iterations of `for i in 0..256`; an empty list is
`load_instruction_at_checked` failing (index past the end), which breaks
the loop. -/
def ed25519ScanGo (payload sig oracle : Bytes) :
    Nat → List Instr → Except ErrorCode Unit
  | _, [] => .error .MissingEd25519Ix
  | 0, _ :: _ => .error .MissingEd25519Ix
  | fuel + 1, ix :: rest =>
    if ix.program_id = ed25519Pid then
      if contains_subslice ix.data oracle && contains_subslice ix.data sig
          && contains_subslice ix.data payload then
        .ok ()
      else ed25519ScanGo payload sig oracle fuel rest
    else ed25519ScanGo payload sig oracle fuel rest

/-- `require_ed25519_ix`: scan up to 256 co-batched instructions for an
Ed25519-program instruction whose data contains the oracle key, the
signature and the payload as contiguous subslices. -/
def require_ed25519_ix (ixs : List Instr) (payload : Bytes) (sig : Bytes)
    (oracle_pubkey : Bytes) : Except ErrorCode Unit :=
  ed25519ScanGo payload sig oracle_pubkey 256 ixs

/-! ## State -/

/-- The `UserState` account. -/
structure UserState where
  owner : Bytes
  streak : Nat
  last_day_claimed : Int
  total_claims : Nat
deriving DecidableEq

/-- `init_user`: fresh state with sentinel `last_day_claimed = -1`. -/
def init_user (user : Bytes) : UserState :=
  { owner := user, streak := 0, last_day_claimed := -1, total_claims := 0 }

/-- The `Claim` record account created per `(user, nonce)`. -/
structure Claim where
  user : Bytes
  nonce : Bytes
  day : Int
deriving DecidableEq

/-- The environment a claim instruction executes in: the trusted clock,
the co-batched instructions, and the set of `(user, nonce)` pairs for
which a claim PDA already exists. -/
structure ClaimEnv where
  now : Int
  ixs : List Instr
  claims : List (Bytes × Bytes)

/-! ## The streak state machine (lines 60-73 of `claim_brush`) -/

/-- The streak rules of `claim_brush`, as the code computes them: the
`last_day_claimed + 1` comparisons use wrapping `i64` addition. -/
def streakUpdate (st : UserState) (day : Int) : Except ErrorCode UserState :=
  if day = st.last_day_claimed then .error .AlreadyClaimedToday
  else if st.last_day_claimed = -1 then
    .ok { st with streak := 1, last_day_claimed := day,
                  total_claims := satAddU32 st.total_claims 1 }
  else if day = wrap64 (st.last_day_claimed + 1) then
    .ok { st with streak := satAddU32 st.streak 1, last_day_claimed := day,
                  total_claims := satAddU32 st.total_claims 1 }
  else if day > wrap64 (st.last_day_claimed + 1) then
    .ok { st with streak := 1, last_day_claimed := day,
                  total_claims := satAddU32 st.total_claims 1 }
  else .error .InvalidDay

/-- The streak rules exactly as the specification words them, with
`last_day_claimed + 1` read as exact integer addition (no wrap). -/
def streakRulesSpec (st : UserState) (day : Int) : Except ErrorCode UserState :=
  if day = st.last_day_claimed then .error .AlreadyClaimedToday
  else if st.last_day_claimed = -1 then
    .ok { st with streak := 1, last_day_claimed := day,
                  total_claims := satAddU32 st.total_claims 1 }
  else if day = st.last_day_claimed + 1 then
    .ok { st with streak := satAddU32 st.streak 1, last_day_claimed := day,
                  total_claims := satAddU32 st.total_claims 1 }
  else if day > st.last_day_claimed + 1 then
    .ok { st with streak := 1, last_day_claimed := day,
                  total_claims := satAddU32 st.total_claims 1 }
  else .error .InvalidDay

/-! ## `claim_brush` and `claim_brush_dev`

Account validation runs before the handler body: the `init` constraint on
the claim PDA fails with `AccountAlreadyInUse` when a record for
`(user, nonce)` already exists.  The handler then checks the owner, the
expiry, the attestation, and finally runs the streak rules.  On success
the new state and the created claim record are returned; on any error the
transaction aborts and nothing is persisted. -/

/-- The `claim_brush` instruction (account validation plus handler). -/
def claim_brush (env : ClaimEnv) (user : Bytes) (st : UserState) (day : Int)
    (session_hash : Bytes) (nonce : Bytes) (expires_at : Int) (sig : Bytes) :
    Except ErrorCode (UserState × Claim) :=
  if (user, nonce) ∈ env.claims then .error .AccountAlreadyInUse
  else if st.owner = user then
    if expires_at ≥ env.now then
      let claimRec : Claim := { user := user, nonce := nonce, day := day }
      let payload := build_payload_bytes user day session_hash nonce expires_at
      match require_ed25519_ix env.ixs payload sig oraclePubkeyBytes with
      | .ok _ => (streakUpdate st day).map (fun st' => (st', claimRec))
      | .error e => .error e
    else .error .Expired
  else .error .BadOwner

/-- The `claim_brush_dev` instruction: same owner/expiry/attestation and
replay checks, but no streak rules — only `total_claims` is bumped. -/
def claim_brush_dev (env : ClaimEnv) (user : Bytes) (st : UserState)
    (day : Int) (session_hash : Bytes) (nonce : Bytes) (expires_at : Int)
    (sig : Bytes) : Except ErrorCode (UserState × Claim) :=
  if (user, nonce) ∈ env.claims then .error .AccountAlreadyInUse
  else if st.owner = user then
    if expires_at ≥ env.now then
      let claimRec : Claim := { user := user, nonce := nonce, day := day }
      let payload := build_payload_bytes user day session_hash nonce expires_at
      match require_ed25519_ix env.ixs payload sig oraclePubkeyBytes with
      | .ok _ =>
        .ok ({ st with total_claims := satAddU32 st.total_claims 1 }, claimRec)
      | .error e => .error e
    else .error .Expired
  else .error .BadOwner

/-- Reachability by successful `claim_brush` calls on one user: each step
is a successful call in some environment with some arguments. -/
inductive ReachClaim (user : Bytes) : UserState → UserState → Prop where
  | refl (st : UserState) : ReachClaim user st st
  | step {st st' st'' : UserState} (env : ClaimEnv) (day : Int)
      (sh nonce : Bytes) (exp : Int) (sig : Bytes) (cl : Claim) :
      ReachClaim user st st' →
      claim_brush env user st' day sh nonce exp sig = .ok (st'', cl) →
      ReachClaim user st st''

/-! ## Helper lemmas -/

/-- Wrapping is the identity on the `i64` range. -/
theorem wrap64_eq_self {x : Int} (h1 : i64Min ≤ x) (h2 : x ≤ i64Max) :
    wrap64 x = x := by
  unfold wrap64
  unfold i64Min at h1
  unfold i64Max at h2
  omega

/-- When `last_day_claimed` is in range and below `i64::MAX`, the wrapped
successor in `streakUpdate` is the exact successor, so the code's streak
rules agree with the spec's. -/
theorem streakUpdate_eq_spec {st : UserState} (day : Int)
    (h1 : i64Min ≤ st.last_day_claimed) (h2 : st.last_day_claimed < i64Max) :
    streakUpdate st day = streakRulesSpec st day := by
  have hw : wrap64 (st.last_day_claimed + 1) = st.last_day_claimed + 1 := by
    apply wrap64_eq_self
    · unfold i64Min at h1 ⊢
      omega
    · unfold i64Max at h2 ⊢
      omega
  unfold streakUpdate streakRulesSpec
  rw [hw]

/-- `claim_brush` with all four gate checks passed reduces to the streak
rules, paired with the created claim record. -/
theorem claim_brush_checks (env : ClaimEnv) (user : Bytes) (st : UserState)
    (day : Int) (sh nonce : Bytes) (exp : Int) (sig : Bytes)
    (hdup : (user, nonce) ∉ env.claims)
    (hown : st.owner = user)
    (hexp : exp ≥ env.now)
    (hatt : require_ed25519_ix env.ixs
      (build_payload_bytes user day sh nonce exp) sig oraclePubkeyBytes
        = .ok ()) :
    claim_brush env user st day sh nonce exp sig =
      (streakUpdate st day).map
        (fun st' => (st', ({ user := user, nonce := nonce, day := day } : Claim))) := by
  unfold claim_brush
  rw [if_neg hdup, if_pos hown, if_pos hexp]
  simp only [hatt]

/-- `claim_brush_dev` with all four gate checks passed only bumps
`total_claims`. -/
theorem claim_brush_dev_checks (env : ClaimEnv) (user : Bytes)
    (st : UserState) (day : Int) (sh nonce : Bytes) (exp : Int) (sig : Bytes)
    (hdup : (user, nonce) ∉ env.claims)
    (hown : st.owner = user)
    (hexp : exp ≥ env.now)
    (hatt : require_ed25519_ix env.ixs
      (build_payload_bytes user day sh nonce exp) sig oraclePubkeyBytes
        = .ok ()) :
    claim_brush_dev env user st day sh nonce exp sig =
      .ok ({ st with total_claims := satAddU32 st.total_claims 1 },
           { user := user, nonce := nonce, day := day }) := by
  unfold claim_brush_dev
  rw [if_neg hdup, if_pos hown, if_pos hexp]
  simp only [hatt]

/-- A successful `claim_brush` call is exactly a successful run of the
streak rules, and the created record carries `(user, nonce, day)`. -/
theorem claim_brush_ok_inv {env : ClaimEnv} {user : Bytes} {st : UserState}
    {day : Int} {sh nonce : Bytes} {exp : Int} {sig : Bytes}
    {st' : UserState} {cl : Claim}
    (h : claim_brush env user st day sh nonce exp sig = .ok (st', cl)) :
    streakUpdate st day = .ok st' ∧
      cl = { user := user, nonce := nonce, day := day } := by
  simp only [claim_brush] at h
  split at h
  · exact absurd h (by simp)
  · split at h
    · split at h
      · split at h
        · rename_i hok
          cases hs : streakUpdate st day with
          | ok s =>
            rw [hs] at h
            simp only [Except.map] at h
            cases h
            simp
          | error e =>
            rw [hs] at h
            simp [Except.map] at h
        · exact absurd h (by simp)
      · exact absurd h (by simp)
    · exact absurd h (by simp)

/-- Inversion of a successful streak transition: the day differs from the
last claimed day, the state records the new day, `total_claims` is bumped
with saturation, the owner is unchanged, and the streak is `1` (first
claim or gap) or the saturated increment (consecutive day). -/
theorem streakUpdate_ok_inv {st : UserState} {day : Int} {st' : UserState}
    (h : streakUpdate st day = .ok st') :
    day ≠ st.last_day_claimed ∧
    st'.owner = st.owner ∧
    st'.last_day_claimed = day ∧
    st'.total_claims = satAddU32 st.total_claims 1 ∧
    (st'.streak = 1 ∨
      (st'.streak = satAddU32 st.streak 1 ∧
        st.last_day_claimed ≠ -1 ∧ day = wrap64 (st.last_day_claimed + 1))) := by
  unfold streakUpdate at h
  split at h
  · exact absurd h (by simp)
  · rename_i hday
    split at h
    · rename_i hsent
      cases h
      exact ⟨hday, rfl, rfl, rfl, Or.inl rfl⟩
    · rename_i hsent
      split at h
      · rename_i hsucc
        cases h
        exact ⟨hday, rfl, rfl, rfl, Or.inr ⟨rfl, hsent, hsucc⟩⟩
      · split at h
        · cases h
          exact ⟨hday, rfl, rfl, rfl, Or.inl rfl⟩
        · exact absurd h (by simp)

/-- `natLeBytes` always produces exactly `k` bytes. -/
theorem natLeBytes_length (k n : Nat) : (natLeBytes k n).length = k := by
  induction k generalizing n with
  | zero => rfl
  | succ k ih => simp [natLeBytes, ih]

/-- Base-256 digits determine the number below `256 ^ k`. -/
theorem natLeBytes_inj (k : Nat) :
    ∀ m n : Nat, m < 256 ^ k → n < 256 ^ k →
      natLeBytes k m = natLeBytes k n → m = n := by
  induction k with
  | zero =>
    intro m n hm hn _
    simp [Nat.pow_zero] at hm hn
    omega
  | succ k ih =>
    intro m n hm hn h
    simp only [natLeBytes, List.cons.injEq] at h
    have hm' : m / 256 < 256 ^ k := by
      rw [Nat.pow_succ] at hm
      omega
    have hn' : n / 256 < 256 ^ k := by
      rw [Nat.pow_succ] at hn
      omega
    have := ih (m / 256) (n / 256) hm' hn' h.2
    omega

/-- `i64ToLeBytes` produces 8 bytes. -/
theorem i64ToLeBytes_length (x : Int) : (i64ToLeBytes x).length = 8 :=
  natLeBytes_length 8 _

/-- `i64ToLeBytes` is injective on the `i64` range. -/
theorem i64ToLeBytes_inj {x y : Int}
    (hx1 : i64Min ≤ x) (hx2 : x ≤ i64Max)
    (hy1 : i64Min ≤ y) (hy2 : y ≤ i64Max)
    (h : i64ToLeBytes x = i64ToLeBytes y) : x = y := by
  unfold i64ToLeBytes at h
  unfold i64Min at hx1 hy1
  unfold i64Max at hx2 hy2
  have hpow : (256 : Nat) ^ 8 = 18446744073709551616 := by norm_num
  have hxb : (x % 18446744073709551616).toNat < 256 ^ 8 := by omega
  have hyb : (y % 18446744073709551616).toNat < 256 ^ 8 := by omega
  have := natLeBytes_inj 8 _ _ hxb hyb h
  omega

/-- The attestation scan succeeds exactly when, among the first `fuel`
instructions, some Ed25519-program instruction's data contains the
oracle key, the signature and the payload. -/
theorem ed25519ScanGo_ok_iff (payload sig oracle : Bytes) :
    ∀ (ixs : List Instr) (fuel : Nat),
      ed25519ScanGo payload sig oracle fuel ixs = .ok () ↔
        ∃ ix, ix ∈ List.take fuel ixs ∧ ix.program_id = ed25519Pid ∧
          contains_subslice ix.data oracle = true ∧
          contains_subslice ix.data sig = true ∧
          contains_subslice ix.data payload = true := by
  intro ixs
  induction ixs with
  | nil =>
    intro fuel
    simp [ed25519ScanGo]
  | cons ix rest ih =>
    intro fuel
    cases fuel with
    | zero => simp [ed25519ScanGo]
    | succ f =>
      simp only [ed25519ScanGo]
      by_cases hpid : ix.program_id = ed25519Pid
      · rw [if_pos hpid]
        by_cases hc : contains_subslice ix.data oracle
            && contains_subslice ix.data sig
            && contains_subslice ix.data payload
        · rw [if_pos hc]
          simp only [Bool.and_eq_true] at hc
          constructor
          · intro _
            exact ⟨ix, by simp, hpid, hc.1.1, hc.1.2, hc.2⟩
          · intro _
            rfl
        · rw [if_neg hc]
          rw [ih f]
          constructor
          · rintro ⟨jx, hjm, hjp⟩
            exact ⟨jx, by simp [List.mem_cons.mpr (Or.inr hjm)], hjp⟩
          · rintro ⟨jx, hjm, hjp⟩
            rw [List.take_succ_cons, List.mem_cons] at hjm
            rcases hjm with hjx | hjm
            · subst hjx
              exact absurd (by simp [hjp.2.1, hjp.2.2.1, hjp.2.2.2]) hc
            · exact ⟨jx, hjm, hjp⟩
      · rw [if_neg hpid]
        rw [ih f]
        constructor
        · rintro ⟨jx, hjm, hjp⟩
          exact ⟨jx, by simp [List.mem_cons.mpr (Or.inr hjm)], hjp⟩
        · rintro ⟨jx, hjm, hjp⟩
          rw [List.take_succ_cons, List.mem_cons] at hjm
          rcases hjm with hjx | hjm
          · subst hjx
            exact absurd hjp.1 hpid
          · exact ⟨jx, hjm, hjp⟩

/-- The scan has only two outcomes: success, or the missing-attestation
error. -/
theorem ed25519ScanGo_ok_or_error (payload sig oracle : Bytes) :
    ∀ (ixs : List Instr) (fuel : Nat),
      ed25519ScanGo payload sig oracle fuel ixs = .ok () ∨
        ed25519ScanGo payload sig oracle fuel ixs = .error .MissingEd25519Ix := by
  intro ixs
  induction ixs with
  | nil =>
    intro fuel
    simp [ed25519ScanGo]
  | cons ix rest ih =>
    intro fuel
    cases fuel with
    | zero => simp [ed25519ScanGo]
    | succ f =>
      simp only [ed25519ScanGo]
      by_cases hpid : ix.program_id = ed25519Pid
      · rw [if_pos hpid]
        by_cases hc : contains_subslice ix.data oracle
            && contains_subslice ix.data sig
            && contains_subslice ix.data payload
        · rw [if_pos hc]
          exact Or.inl rfl
        · rw [if_neg hc]
          exact ih f
      · rw [if_neg hpid]
        exact ih f

/-- A streak-rules error is one of the two streak error codes. -/
theorem streakUpdate_error_inv {st : UserState} {day : Int} {e : ErrorCode}
    (h : streakUpdate st day = .error e) :
    e = .AlreadyClaimedToday ∨ e = .InvalidDay := by
  unfold streakUpdate at h
  split at h
  · cases h
    exact Or.inl rfl
  · split at h
    · exact absurd h (by simp)
    · split at h
      · exact absurd h (by simp)
      · split at h
        · exact absurd h (by simp)
        · cases h
          exact Or.inr rfl

/-! ## Concrete fixtures for witnesses and counterexamples -/

/-- A caller identity used in concrete runs. -/
def userW : Bytes := List.replicate 32 2

/-- A different identity, never the owner. -/
def otherW : Bytes := List.replicate 32 3

/-- A session hash used in concrete runs. -/
def shW : Bytes := List.replicate 32 7

/-- A signature used in concrete runs. -/
def sigW : Bytes := List.replicate 64 1

/-- Nonces used in concrete runs. -/
def nonceA : Bytes := List.replicate 16 11

/-- See `nonceA`. -/
def nonceB : Bytes := List.replicate 16 12

/-- See `nonceA`. -/
def nonceC : Bytes := List.replicate 16 13

/-- See `nonceA`. -/
def nonceD : Bytes := List.replicate 16 14

/-- See `nonceA`. -/
def nonceE : Bytes := List.replicate 16 15

/-- See `nonceA`. -/
def nonceF : Bytes := List.replicate 16 16

/-- See `nonceA`. -/
def nonceG : Bytes := List.replicate 16 17

/-- See `nonceA`. -/
def nonceH : Bytes := List.replicate 16 18

/-- An environment whose instruction list carries a matching Ed25519
verify instruction for the given claim arguments, with a fresh claim
record set and clock at `0`. -/
def envFor (user : Bytes) (day : Int) (sh nonce : Bytes) (exp : Int)
    (sig : Bytes) : ClaimEnv :=
  { now := 0,
    ixs := [{ program_id := ed25519Pid,
              data := oraclePubkeyBytes ++ sig ++
                build_payload_bytes user day sh nonce exp }],
    claims := [] }

/-- Well-formedness of the payload inputs: the fixed widths of the byte
fields and the `i64` ranges of the integer fields. -/
def wfPayloadArgs (user : Bytes) (day : Int) (sh nonce : Bytes)
    (exp : Int) : Prop :=
  user.length = 32 ∧ sh.length = 32 ∧ nonce.length = 16 ∧
    i64Min ≤ day ∧ day ≤ i64Max ∧ i64Min ≤ exp ∧ exp ≤ i64Max

/-! ## Claim C5: payload layout and injectivity -/

/-- C5: `build_payload_bytes` returns the 100-byte concatenation
`"CPv1" ∥ user(32) ∥ day(8 LE) ∥ session_hash(32) ∥ nonce(16) ∥
expires_at(8 LE)`, and on well-formed inputs the encoding is injective:
no two distinct input tuples encode to the same bytes. -/
theorem c5_payload_layout_injective
    (u1 u2 : Bytes) (d1 d2 : Int) (s1 s2 n1 n2 : Bytes) (e1 e2 : Int)
    (h1 : wfPayloadArgs u1 d1 s1 n1 e1) (h2 : wfPayloadArgs u2 d2 s2 n2 e2) :
    (build_payload_bytes u1 d1 s1 n1 e1).length = 100 ∧
    build_payload_bytes u1 d1 s1 n1 e1 =
      magicBytes ++ u1 ++ i64ToLeBytes d1 ++ s1 ++ n1 ++ i64ToLeBytes e1 ∧
    (build_payload_bytes u1 d1 s1 n1 e1 = build_payload_bytes u2 d2 s2 n2 e2 →
      u1 = u2 ∧ d1 = d2 ∧ s1 = s2 ∧ n1 = n2 ∧ e1 = e2) := by
  obtain ⟨hu1, hs1, hn1, hd1a, hd1b, he1a, he1b⟩ := h1
  obtain ⟨hu2, hs2, hn2, hd2a, hd2b, he2a, he2b⟩ := h2
  refine ⟨?_, rfl, ?_⟩
  · simp only [build_payload_bytes, List.length_append, i64ToLeBytes_length,
      hu1, hs1, hn1, magicBytes, List.length_cons, List.length_nil]
  · intro h
    unfold build_payload_bytes at h
    simp only [List.append_assoc] at h
    obtain ⟨-, h⟩ := List.append_inj h rfl
    obtain ⟨huu, h⟩ := List.append_inj h (by rw [hu1, hu2])
    obtain ⟨hdd, h⟩ :=
      List.append_inj h (by rw [i64ToLeBytes_length, i64ToLeBytes_length])
    obtain ⟨hss, h⟩ := List.append_inj h (by rw [hs1, hs2])
    obtain ⟨hnn, hee⟩ := List.append_inj h (by rw [hn1, hn2])
    exact ⟨huu, i64ToLeBytes_inj hd1a hd1b hd2a hd2b hdd, hss, hnn,
      i64ToLeBytes_inj he1a he1b he2a he2b hee⟩

/-- Witness for C5 at a concrete well-formed input. -/
theorem c5_payload_layout_injective_witness :
    wfPayloadArgs userW 5 shW nonceA 9 ∧
      (build_payload_bytes userW 5 shW nonceA 9).length = 100 :=
  ⟨by unfold wfPayloadArgs; decide,
   (c5_payload_layout_injective userW userW 5 5 shW shW nonceA nonceA 9 9
      ⟨by decide, by decide, by decide, by decide, by decide, by decide,
        by decide⟩
      ⟨by decide, by decide, by decide, by decide, by decide, by decide,
        by decide⟩).1⟩

/-! ## Claim C6: the attestation scan -/

/-- C6: `require_ed25519_ix` scans at most the first 256 co-batched
instructions; it succeeds iff some scanned instruction whose program id
is the Ed25519 verify program contains the oracle key bytes, the
signature bytes and the payload bytes as contiguous subslices of its
data; otherwise it fails with `MissingEd25519Ix`. -/
theorem c6_attestation_scan (ixs : List Instr) (payload sig oracle : Bytes) :
    (require_ed25519_ix ixs payload sig oracle = .ok () ↔
      ∃ ix, ix ∈ List.take 256 ixs ∧ ix.program_id = ed25519Pid ∧
        contains_subslice ix.data oracle = true ∧
        contains_subslice ix.data sig = true ∧
        contains_subslice ix.data payload = true) ∧
    (require_ed25519_ix ixs payload sig oracle ≠ .ok () →
      require_ed25519_ix ixs payload sig oracle = .error .MissingEd25519Ix) := by
  constructor
  · exact ed25519ScanGo_ok_iff payload sig oracle ixs 256
  · intro h
    rcases ed25519ScanGo_ok_or_error payload sig oracle ixs 256 with h1 | h1
    · exact absurd h1 h
    · exact h1

/-- Witness for C6: the scan fails on an empty batch and succeeds on a
batch holding one matching Ed25519 instruction. -/
theorem c6_attestation_scan_witness :
    require_ed25519_ix [] [9, 9] [8] [7] = .error .MissingEd25519Ix ∧
    require_ed25519_ix
      [{ program_id := ed25519Pid, data := [7] ++ [8] ++ [9, 9] }]
      [9, 9] [8] [7] = .ok () :=
  ⟨(c6_attestation_scan [] [9, 9] [8] [7]).2 (by decide),
   (c6_attestation_scan
      [{ program_id := ed25519Pid, data := [7] ++ [8] ++ [9, 9] }]
      [9, 9] [8] [7]).1.mpr
     ⟨{ program_id := ed25519Pid, data := [7] ++ [8] ++ [9, 9] },
       by decide, rfl, by decide, by decide, by decide⟩⟩

/-! ## Claim C1: the streak rules -/

/-- C1 (counterexample to the claim as stated): for the state with
`last_day_claimed = i64::MAX` — reachable by one successful claim of day
`i64::MAX` — and input day `i64::MIN` that has passed the owner, expiry,
attestation and replay checks, the rules as written (with exact integer
`last_day_claimed + 1`) demand `InvalidDay`, but `claim_brush` succeeds
and increments the streak, because the code's `+ 1` wraps. -/
theorem c1_counterexample :
    streakRulesSpec
      { owner := userW, streak := 3, last_day_claimed := i64Max,
        total_claims := 3 } i64Min = .error .InvalidDay ∧
    claim_brush (envFor userW i64Min shW nonceA 0 sigW) userW
      { owner := userW, streak := 3, last_day_claimed := i64Max,
        total_claims := 3 } i64Min shW nonceA 0 sigW =
      .ok ({ owner := userW, streak := 4, last_day_claimed := i64Min,
             total_claims := 4 },
           { user := userW, nonce := nonceA, day := i64Min }) :=
  ⟨by decide, by decide⟩

/-- C1 (amended): for every user state whose `last_day_claimed` is in the
`i64` range and below `i64::MAX`, and every input that has passed the
owner, expiry, attestation and replay checks, `claim_brush` implements
exactly the claimed rules in the claimed order; at
`last_day_claimed = i64::MAX` the code's `last_day_claimed + 1` instead
wraps to `i64::MIN`. -/
theorem c1_streak_rules (env : ClaimEnv) (user : Bytes) (st : UserState)
    (day : Int) (sh nonce : Bytes) (exp : Int) (sig : Bytes)
    (hdup : (user, nonce) ∉ env.claims)
    (hown : st.owner = user)
    (hexp : exp ≥ env.now)
    (hatt : require_ed25519_ix env.ixs
      (build_payload_bytes user day sh nonce exp) sig oraclePubkeyBytes
        = .ok ())
    (hr1 : i64Min ≤ st.last_day_claimed)
    (hr2 : st.last_day_claimed < i64Max) :
    claim_brush env user st day sh nonce exp sig =
      (streakRulesSpec st day).map
        (fun st' => (st', ({ user := user, nonce := nonce, day := day } : Claim))) := by
  rw [claim_brush_checks env user st day sh nonce exp sig hdup hown hexp hatt,
    streakUpdate_eq_spec day hr1 hr2]

/-- Witness for C1 at a concrete passed-checks input. -/
theorem c1_streak_rules_witness :
    claim_brush (envFor userW 5 shW nonceB 0 sigW) userW (init_user userW)
      5 shW nonceB 0 sigW =
      (streakRulesSpec (init_user userW) 5).map
        (fun st' => (st', ({ user := userW, nonce := nonceB, day := 5 } : Claim))) :=
  c1_streak_rules (envFor userW 5 shW nonceB 0 sigW) userW (init_user userW)
    5 shW nonceB 0 sigW (by decide) (by decide) (by decide) (by decide)
    (by decide) (by decide)

/-! ## Claim C2: the order of the checks -/

/-- C2 (counterexample to the claim as stated): on an input that fails
both the attestation check (empty instruction batch) and the
`(user, nonce)` uniqueness check (the pair is already in the claim set),
the reported error is the replay failure raised during account
validation, not `MissingEd25519Ix`. -/
theorem c2_counterexample :
    claim_brush { now := 0, ixs := [], claims := [(userW, nonceA)] } userW
      (init_user userW) 1 shW nonceA 0 sigW = .error .AccountAlreadyInUse ∧
    claim_brush { now := 0, ixs := [], claims := [(userW, nonceA)] } userW
      (init_user userW) 1 shW nonceA 0 sigW ≠ .error .MissingEd25519Ix ∧
    require_ed25519_ix ([] : List Instr)
      (build_payload_bytes userW 1 shW nonceA 0) sigW oraclePubkeyBytes =
      .error .MissingEd25519Ix :=
  ⟨by decide, by decide, by decide⟩

/-- C2 (amended): the stages of `claim_brush` run in the order replay
guard (the `init`-constrained ClaimRecord creation, during account
validation), then owner check, then expiry guard, then attestation
verifier, then streak engine; each stage's error is reported only when
every earlier stage passed, and a failing stage aborts the call with no
state produced. -/
theorem c2_stage_order (env : ClaimEnv) (user : Bytes) (st : UserState)
    (day : Int) (sh nonce : Bytes) (exp : Int) (sig : Bytes) :
    ((user, nonce) ∈ env.claims →
      claim_brush env user st day sh nonce exp sig =
        .error .AccountAlreadyInUse) ∧
    ((user, nonce) ∉ env.claims → st.owner ≠ user →
      claim_brush env user st day sh nonce exp sig = .error .BadOwner) ∧
    ((user, nonce) ∉ env.claims → st.owner = user → exp < env.now →
      claim_brush env user st day sh nonce exp sig = .error .Expired) ∧
    ((user, nonce) ∉ env.claims → st.owner = user → exp ≥ env.now →
      require_ed25519_ix env.ixs (build_payload_bytes user day sh nonce exp)
        sig oraclePubkeyBytes = .error .MissingEd25519Ix →
      claim_brush env user st day sh nonce exp sig =
        .error .MissingEd25519Ix) ∧
    ((user, nonce) ∉ env.claims → st.owner = user → exp ≥ env.now →
      require_ed25519_ix env.ixs (build_payload_bytes user day sh nonce exp)
        sig oraclePubkeyBytes = .ok () →
      claim_brush env user st day sh nonce exp sig =
        (streakUpdate st day).map
          (fun st' => (st', ({ user := user, nonce := nonce, day := day } : Claim)))) := by
  refine ⟨fun hdup => ?_, fun hdup hown => ?_, fun hdup hown hexp => ?_,
    fun hdup hown hexp hatt => ?_, fun hdup hown hexp hatt => ?_⟩
  · unfold claim_brush
    rw [if_pos hdup]
  · unfold claim_brush
    rw [if_neg hdup, if_neg hown]
  · unfold claim_brush
    rw [if_neg hdup, if_pos hown, if_neg (by omega : ¬ exp ≥ env.now)]
  · unfold claim_brush
    rw [if_neg hdup, if_pos hown, if_pos hexp]
    simp only [hatt]
  · exact claim_brush_checks env user st day sh nonce exp sig hdup hown hexp
      hatt

/-- Witness for C2: the replay stage fires on a duplicate nonce, and the
expiry stage fires once replay and owner pass. -/
theorem c2_stage_order_witness :
    claim_brush { now := 0, ixs := [], claims := [(userW, nonceB)] } userW
      (init_user userW) 2 shW nonceB 0 sigW = .error .AccountAlreadyInUse ∧
    claim_brush { now := 5, ixs := [], claims := [] } userW
      (init_user userW) 2 shW nonceB 0 sigW = .error .Expired :=
  ⟨(c2_stage_order { now := 0, ixs := [], claims := [(userW, nonceB)] }
      userW (init_user userW) 2 shW nonceB 0 sigW).1 (by decide),
   (c2_stage_order { now := 5, ixs := [], claims := [] } userW
      (init_user userW) 2 shW nonceB 0 sigW).2.2.1 (by decide) (by decide)
     (by decide)⟩

/-! ## Claim C3: monotonicity of `last_day_claimed` -/

/-- C3 (counterexample to the claim as stated): from the freshly
initialized state (sentinel `-1`), a claim of day `-2` with otherwise
valid inputs succeeds, and `last_day_claimed` moves from `-1` down to
`-2`: the step from the sentinel to the first claimed day can decrease
the field. -/
theorem c3_counterexample :
    claim_brush (envFor userW (-2) shW nonceC 0 sigW) userW
      (init_user userW) (-2) shW nonceC 0 sigW =
      .ok ({ owner := userW, streak := 1, last_day_claimed := -2,
             total_claims := 1 },
           { user := userW, nonce := nonceC, day := -2 }) ∧
    (-2 : Int) < (init_user userW).last_day_claimed :=
  ⟨by decide, by decide⟩

/-- C3 (amended): across successful `claim_brush` calls,
`last_day_claimed` strictly increases at every step whose starting
`last_day_claimed` is neither the sentinel `-1` nor `i64::MAX` (and is in
the `i64` range); the step out of the sentinel goes to the claimed day,
which may lie below `-1`, and from `i64::MAX` a claim of `i64::MIN` is
accepted and decreases the field. -/
theorem c3_monotone (env : ClaimEnv) (user : Bytes) (st : UserState)
    (day : Int) (sh nonce : Bytes) (exp : Int) (sig : Bytes)
    (st' : UserState) (cl : Claim)
    (hsent : st.last_day_claimed ≠ -1)
    (hr1 : i64Min ≤ st.last_day_claimed)
    (hr2 : st.last_day_claimed < i64Max)
    (h : claim_brush env user st day sh nonce exp sig = .ok (st', cl)) :
    st.last_day_claimed < st'.last_day_claimed := by
  obtain ⟨hs, -⟩ := claim_brush_ok_inv h
  rw [streakUpdate_eq_spec day hr1 hr2] at hs
  unfold streakRulesSpec at hs
  by_cases h1 : day = st.last_day_claimed
  · rw [if_pos h1] at hs
    exact absurd hs (by simp)
  · rw [if_neg h1, if_neg hsent] at hs
    by_cases h2 : day = st.last_day_claimed + 1
    · rw [if_pos h2] at hs
      injection hs with hs'
      rw [← hs']
      show st.last_day_claimed < day
      omega
    · rw [if_neg h2] at hs
      by_cases h3 : day > st.last_day_claimed + 1
      · rw [if_pos h3] at hs
        injection hs with hs'
        rw [← hs']
        show st.last_day_claimed < day
        omega
      · rw [if_neg h3] at hs
        exact absurd hs (by simp)

/-- Witness for C3: one consecutive-day step from a non-sentinel state
strictly increases `last_day_claimed`. -/
theorem c3_monotone_witness :
    ({ owner := userW, streak := 1, last_day_claimed := 5,
       total_claims := 1 } : UserState).last_day_claimed <
      ({ owner := userW, streak := 2, last_day_claimed := 6,
         total_claims := 2 } : UserState).last_day_claimed :=
  c3_monotone (envFor userW 6 shW nonceC 0 sigW) userW
    { owner := userW, streak := 1, last_day_claimed := 5, total_claims := 1 }
    6 shW nonceC 0 sigW
    { owner := userW, streak := 2, last_day_claimed := 6, total_claims := 2 }
    { user := userW, nonce := nonceC, day := 6 }
    (by decide) (by decide) (by decide) (by decide)

/-! ## Claim C4: counters never decrease, never wrap -/

/-- Both counters stay at or below `u32::MAX` along every run of
successful claims from the initialized state. -/
theorem reach_bounds {user : Bytes} {st : UserState}
    (h : ReachClaim user (init_user user) st) :
    st.streak ≤ u32Max ∧ st.total_claims ≤ u32Max := by
  induction h with
  | refl => exact ⟨Nat.zero_le _, Nat.zero_le _⟩
  | step env day sh nonce exp sig cl hr hcb ih =>
    obtain ⟨hs, -⟩ := claim_brush_ok_inv hcb
    obtain ⟨-, -, -, ht, hstk⟩ := streakUpdate_ok_inv hs
    constructor
    · rcases hstk with h1 | ⟨h1, -⟩ <;> rw [h1]
      · decide
      · exact min_le_right _ _
    · rw [ht]
      exact min_le_right _ _

/-- C4 (counterexample to the claim as stated): a run of successful
claims of days `1`, `2`, `12` from the initialized state brings the
streak from `2` down to `1` at the third (gap) claim: `streak` can
decrease from one successful claim to the next. -/
theorem c4_counterexample :
    claim_brush (envFor userW 1 shW nonceD 0 sigW) userW (init_user userW)
      1 shW nonceD 0 sigW =
      .ok ({ owner := userW, streak := 1, last_day_claimed := 1,
             total_claims := 1 },
           { user := userW, nonce := nonceD, day := 1 }) ∧
    claim_brush (envFor userW 2 shW nonceE 0 sigW) userW
      { owner := userW, streak := 1, last_day_claimed := 1,
        total_claims := 1 } 2 shW nonceE 0 sigW =
      .ok ({ owner := userW, streak := 2, last_day_claimed := 2,
             total_claims := 2 },
           { user := userW, nonce := nonceE, day := 2 }) ∧
    claim_brush (envFor userW 12 shW nonceF 0 sigW) userW
      { owner := userW, streak := 2, last_day_claimed := 2,
        total_claims := 2 } 12 shW nonceF 0 sigW =
      .ok ({ owner := userW, streak := 1, last_day_claimed := 12,
             total_claims := 3 },
           { user := userW, nonce := nonceF, day := 12 }) ∧
    (1 : Nat) < 2 :=
  ⟨by decide, by decide, by decide, by decide⟩

/-- C4 (amended): across every sequence of successful `claim_brush`
calls from the initialized state, `total_claims` never decreases and
both `total_claims` and `streak` never pass `u32::MAX` (the saturating
adds clamp there); `streak`, however, can decrease, resetting to `1` on
a gap day. -/
theorem c4_counters (user : Bytes) (st : UserState)
    (h : ReachClaim user (init_user user) st) :
    st.streak ≤ u32Max ∧ st.total_claims ≤ u32Max ∧
    (∀ (env : ClaimEnv) (day : Int) (sh nonce : Bytes) (exp : Int)
        (sig : Bytes) (st' : UserState) (cl : Claim),
      claim_brush env user st day sh nonce exp sig = .ok (st', cl) →
      st.total_claims ≤ st'.total_claims ∧ st'.streak ≤ u32Max ∧
        st'.total_claims ≤ u32Max) := by
  obtain ⟨hb1, hb2⟩ := reach_bounds h
  refine ⟨hb1, hb2, ?_⟩
  intro env day sh nonce exp sig st' cl hcb
  obtain ⟨hs, -⟩ := claim_brush_ok_inv hcb
  obtain ⟨-, -, -, ht, hstk⟩ := streakUpdate_ok_inv hs
  refine ⟨?_, ?_, ?_⟩
  · rw [ht]
    unfold satAddU32
    unfold u32Max at hb2 ⊢
    omega
  · rcases hstk with h1 | ⟨h1, -⟩ <;> rw [h1]
    · decide
    · exact min_le_right _ _
  · rw [ht]
    exact min_le_right _ _

/-- Witness for C4 at the initialized state and one concrete successful
claim. -/
theorem c4_counters_witness :
    (init_user userW).streak ≤ u32Max ∧
    (init_user userW).total_claims ≤
      ({ owner := userW, streak := 1, last_day_claimed := 3,
         total_claims := 1 } : UserState).total_claims := by
  have h := c4_counters userW (init_user userW) (ReachClaim.refl _)
  refine ⟨h.1, ?_⟩
  exact (h.2.2 (envFor userW 3 shW nonceG 0 sigW) 3 shW nonceG 0 sigW
    { owner := userW, streak := 1, last_day_claimed := 3, total_claims := 1 }
    { user := userW, nonce := nonceG, day := 3 } (by decide)).1

/-- The attestation check has only two outcomes: success or
`MissingEd25519Ix`. -/
theorem require_ed25519_ix_ok_or_error (ixs : List Instr)
    (payload sig oracle : Bytes) :
    require_ed25519_ix ixs payload sig oracle = .ok () ∨
      require_ed25519_ix ixs payload sig oracle = .error .MissingEd25519Ix :=
  ed25519ScanGo_ok_or_error payload sig oracle ixs 256

/-! ## Claim C7: the expiry guard -/

/-- C7 (counterexample to the claim as stated): a claim whose
`expires_at` is strictly below `now` does not always return `Expired` —
when the caller is not the stored owner, `BadOwner` is reported instead,
because the owner check runs before the expiry check. -/
theorem c7_counterexample :
    ((-1 : Int) < (0 : Int)) ∧
    claim_brush { now := 0, ixs := [], claims := [] } userW
      { owner := otherW, streak := 0, last_day_claimed := -1,
        total_claims := 0 } 1 shW nonceA (-1) sigW = .error .BadOwner ∧
    claim_brush { now := 0, ixs := [], claims := [] } userW
      { owner := otherW, streak := 0, last_day_claimed := -1,
        total_claims := 0 } 1 shW nonceA (-1) sigW ≠ .error .Expired :=
  ⟨by decide, by decide, by decide⟩

/-- C7 (amended): once the replay and owner checks pass, the expiry
check succeeds iff `expires_at ≥ now`: for `expires_at < now` the call
returns `Expired` whatever the day, session hash, signature and
co-batched instructions are, and for `expires_at ≥ now` the call never
returns `Expired`. -/
theorem c7_expiry (env : ClaimEnv) (user : Bytes) (st : UserState)
    (day : Int) (sh nonce : Bytes) (exp : Int) (sig : Bytes)
    (hdup : (user, nonce) ∉ env.claims)
    (hown : st.owner = user) :
    (exp < env.now →
      claim_brush env user st day sh nonce exp sig = .error .Expired) ∧
    (exp ≥ env.now →
      claim_brush env user st day sh nonce exp sig ≠ .error .Expired) := by
  constructor
  · intro hlt
    unfold claim_brush
    rw [if_neg hdup, if_pos hown, if_neg (by omega : ¬ exp ≥ env.now)]
  · intro hge
    unfold claim_brush
    rw [if_neg hdup, if_pos hown, if_pos hge]
    cases hmatch : require_ed25519_ix env.ixs
        (build_payload_bytes user day sh nonce exp) sig oraclePubkeyBytes with
    | error e =>
      simp only [hmatch]
      rcases require_ed25519_ix_ok_or_error env.ixs
          (build_payload_bytes user day sh nonce exp) sig oraclePubkeyBytes
        with hoe | hoe
      · rw [hmatch] at hoe
        exact absurd hoe (by simp)
      · rw [hmatch] at hoe
        injection hoe with he
        rw [he]
        simp
    | ok u =>
      simp only [hmatch]
      cases hs : streakUpdate st day with
      | ok s => simp [Except.map]
      | error e =>
        rcases streakUpdate_error_inv hs with he | he <;> rw [he] <;>
          simp [Except.map]

/-- Witness for C7: an expired claim from the owner with a fresh nonce
returns `Expired`; an unexpired one does not. -/
theorem c7_expiry_witness :
    claim_brush { now := 0, ixs := [], claims := [] } userW
      (init_user userW) 1 shW nonceA (-1) sigW = .error .Expired ∧
    claim_brush { now := 0, ixs := [], claims := [] } userW
      (init_user userW) 1 shW nonceA 0 sigW ≠ .error .Expired :=
  ⟨(c7_expiry { now := 0, ixs := [], claims := [] } userW (init_user userW)
      1 shW nonceA (-1) sigW (by decide) (by decide)).1 (by decide),
   (c7_expiry { now := 0, ixs := [], claims := [] } userW (init_user userW)
      1 shW nonceA 0 sigW (by decide) (by decide)).2 (by decide)⟩

/-! ## Claim C8: the dev variant's frame -/

/-- C8: a successful `claim_brush_dev` call only bumps `total_claims`
(saturating); `streak`, `last_day_claimed` and `owner` are unchanged, and
no day-ordering or same-day check is applied — the day is arbitrary,
including days equal to or below `last_day_claimed`. -/
theorem c8_dev_frame (env : ClaimEnv) (user : Bytes) (st : UserState)
    (day : Int) (sh nonce : Bytes) (exp : Int) (sig : Bytes)
    (hdup : (user, nonce) ∉ env.claims)
    (hown : st.owner = user)
    (hexp : exp ≥ env.now)
    (hatt : require_ed25519_ix env.ixs
      (build_payload_bytes user day sh nonce exp) sig oraclePubkeyBytes
        = .ok ()) :
    ∃ st', claim_brush_dev env user st day sh nonce exp sig =
        .ok (st', { user := user, nonce := nonce, day := day }) ∧
      st'.streak = st.streak ∧
      st'.last_day_claimed = st.last_day_claimed ∧
      st'.owner = st.owner ∧
      st'.total_claims = satAddU32 st.total_claims 1 :=
  ⟨{ st with total_claims := satAddU32 st.total_claims 1 },
   claim_brush_dev_checks env user st day sh nonce exp sig hdup hown hexp
     hatt, rfl, rfl, rfl, rfl⟩

/-- Witness for C8 at a day equal to the stored `last_day_claimed`,
which `claim_brush` would reject as `AlreadyClaimedToday`. -/
theorem c8_dev_frame_witness :
    ∃ st', claim_brush_dev (envFor userW 10 shW nonceH 0 sigW) userW
        { owner := userW, streak := 2, last_day_claimed := 10,
          total_claims := 2 } 10 shW nonceH 0 sigW =
        .ok (st', { user := userW, nonce := nonceH, day := 10 }) ∧
      st'.streak = 2 ∧ st'.last_day_claimed = 10 ∧ st'.owner = userW ∧
      st'.total_claims = 3 := by
  obtain ⟨st', h1, h2, h3, h4, h5⟩ := c8_dev_frame
    (envFor userW 10 shW nonceH 0 sigW) userW
    { owner := userW, streak := 2, last_day_claimed := 10, total_claims := 2 }
    10 shW nonceH 0 sigW (by decide) (by decide) (by decide) (by decide)
  exact ⟨st', h1, h2, h3, h4, by rw [h5]; decide⟩

/-! ## Claim C9: claiming the sentinel day -/

/-- C9: for a freshly initialized user (`last_day_claimed = -1`), a claim
of day `-1` with otherwise valid inputs fails with `AlreadyClaimedToday`
and produces no state: the same-day check runs before the never-claimed
check, and the sentinel is a representable day. -/
theorem c9_sentinel_day (env : ClaimEnv) (user : Bytes) (st : UserState)
    (sh nonce : Bytes) (exp : Int) (sig : Bytes)
    (hdup : (user, nonce) ∉ env.claims)
    (hown : st.owner = user)
    (hexp : exp ≥ env.now)
    (hatt : require_ed25519_ix env.ixs
      (build_payload_bytes user (-1) sh nonce exp) sig oraclePubkeyBytes
        = .ok ())
    (hsent : st.last_day_claimed = -1) :
    claim_brush env user st (-1) sh nonce exp sig =
      .error .AlreadyClaimedToday := by
  rw [claim_brush_checks env user st (-1) sh nonce exp sig hdup hown hexp
    hatt]
  unfold streakUpdate
  rw [hsent, if_pos rfl]
  rfl

/-- Witness for C9 at the concrete initialized state. -/
theorem c9_sentinel_day_witness :
    claim_brush (envFor userW (-1) shW nonceA 0 sigW) userW
      (init_user userW) (-1) shW nonceA 0 sigW =
      .error .AlreadyClaimedToday :=
  c9_sentinel_day (envFor userW (-1) shW nonceA 0 sigW) userW
    (init_user userW) shW nonceA 0 sigW (by decide) (by decide) (by decide)
    (by decide) (by decide)

/-! ## Claim C10: wrap-around of the consecutive-day test -/

/-- C10: the consecutive-day test computes `last_day_claimed + 1` with
wrapping 64-bit two's-complement arithmetic.  A state with
`last_day_claimed = i64::MAX` is reachable by one successful claim of day
`i64::MAX` from the initialized state, and from it a claim of day
`i64::MIN` satisfies `day == last_day_claimed + 1` under wrapping, so it
is accepted as a consecutive day with a streak increment instead of
being rejected with `InvalidDay`. -/
theorem c10_wrap_consecutive :
    (∀ (env : ClaimEnv) (user : Bytes) (st : UserState) (sh nonce : Bytes)
        (exp : Int) (sig : Bytes),
      (user, nonce) ∉ env.claims → st.owner = user → exp ≥ env.now →
      require_ed25519_ix env.ixs
        (build_payload_bytes user i64Max sh nonce exp) sig oraclePubkeyBytes
          = .ok () →
      st.last_day_claimed = -1 →
      claim_brush env user st i64Max sh nonce exp sig =
        .ok ({ st with streak := 1,
                       last_day_claimed := i64Max,
                       total_claims := satAddU32 st.total_claims 1 },
             { user := user, nonce := nonce, day := i64Max })) ∧
    (∀ (env : ClaimEnv) (user : Bytes) (st : UserState) (sh nonce : Bytes)
        (exp : Int) (sig : Bytes),
      (user, nonce) ∉ env.claims → st.owner = user → exp ≥ env.now →
      require_ed25519_ix env.ixs
        (build_payload_bytes user i64Min sh nonce exp) sig oraclePubkeyBytes
          = .ok () →
      st.last_day_claimed = i64Max →
      claim_brush env user st i64Min sh nonce exp sig =
        .ok ({ st with streak := satAddU32 st.streak 1,
                       last_day_claimed := i64Min,
                       total_claims := satAddU32 st.total_claims 1 },
             { user := user, nonce := nonce, day := i64Min })) := by
  constructor
  · intro env user st sh nonce exp sig hdup hown hexp hatt hsent
    rw [claim_brush_checks env user st i64Max sh nonce exp sig hdup hown
      hexp hatt]
    unfold streakUpdate
    rw [hsent, if_neg (by decide : ¬ (i64Max : Int) = -1), if_pos rfl]
    rfl
  · intro env user st sh nonce exp sig hdup hown hexp hatt hmax
    rw [claim_brush_checks env user st i64Min sh nonce exp sig hdup hown
      hexp hatt]
    unfold streakUpdate
    rw [hmax, if_neg (by decide : ¬ (i64Min : Int) = i64Max),
      if_neg (by decide : ¬ (i64Max : Int) = -1),
      if_pos (by decide : i64Min = wrap64 (i64Max + 1))]
    rfl

/-- Witness for C10: the two steps run concretely — first claim
`i64::MAX` from the initialized state, then claim `i64::MIN`, which is
accepted with a streak increment. -/
theorem c10_wrap_consecutive_witness :
    claim_brush (envFor userW i64Max shW nonceB 0 sigW) userW
      (init_user userW) i64Max shW nonceB 0 sigW =
      .ok ({ init_user userW with
               streak := 1,
               last_day_claimed := i64Max,
               total_claims := satAddU32 (init_user userW).total_claims 1 },
           { user := userW, nonce := nonceB, day := i64Max }) ∧
    claim_brush (envFor userW i64Min shW nonceC 0 sigW) userW
      { owner := userW, streak := 1, last_day_claimed := i64Max,
        total_claims := 1 } i64Min shW nonceC 0 sigW =
      .ok ({ owner := userW, streak := satAddU32 1 1,
             last_day_claimed := i64Min, total_claims := satAddU32 1 1 },
           { user := userW, nonce := nonceC, day := i64Min }) :=
  ⟨c10_wrap_consecutive.1 (envFor userW i64Max shW nonceB 0 sigW) userW
     (init_user userW) shW nonceB 0 sigW (by decide) (by decide) (by decide)
     (by decide) (by decide),
   c10_wrap_consecutive.2 (envFor userW i64Min shW nonceC 0 sigW) userW
     { owner := userW, streak := 1, last_day_claimed := i64Max,
       total_claims := 1 } shW nonceC 0 sigW (by decide) (by decide)
     (by decide) (by decide) (by decide)⟩

end CavityProof
